import Mathlib

/-!
# Verification of the scalar Kalman-fusion core (`src/lib.rs`)

Shallow embedding of the one-dimensional Kalman filter:

* The floating-point path (`T: Float`) is modelled over `ℚ` with exact field
  arithmetic; `Float::abs` becomes `|·|`.  Division by zero, which for IEEE
  floats yields a non-finite value that propagates, is the usual `ℚ` junk
  value `0`; claims touching that edge carry explicit nonzero-denominator
  hypotheses, and the `_finite` update variant makes the non-finite outcome
  explicit as `none`.
* The fixed-point path (`T: Fixed`, the `fixed` crate) is modelled by raw
  integer representations: a value of a format with `f` fractional bits is a
  raw integer `n` denoting `n / 2^f`.  Lossy arithmetic in the `fixed` crate
  truncates the two's-complement representation, i.e. rounds toward `−∞`,
  which on raw representations is `Int.fdiv`.  Word-size overflow and
  saturation are representation-specific and explicitly outside the
  algorithm's contract (spec §4.3, §7), so raw values are unbounded here.
  The crate's `Div` panics on a zero divisor; the `_checked` variant below
  makes that partiality explicit.
-/

namespace KalmanFusion

/-- Model of `KalmanState<T>` (src/lib.rs, lines 6–12): estimate, its
uncertainty, and the two tuning constants. -/
structure KalmanState (α : Type) where
  estimate : α
  uncertainty : α
  measurement_variance : α
  process_variance : α
deriving Repr, DecidableEq

/-- `KalmanState::new_float` (src/lib.rs, lines 17–29): the three
uncertainty-like fields are normalised with `abs`. -/
def new_float (estimate uncertainty measurement_variance process_variance : ℚ) :
    KalmanState ℚ :=
  ⟨estimate, |uncertainty|, |measurement_variance|, |process_variance|⟩

/-- The Kalman gain of the float path (src/lib.rs, line 40). -/
def kalmanGainFloat (s : KalmanState ℚ) : ℚ :=
  s.uncertainty / (s.uncertainty + s.measurement_variance)

/-- `kalman_update_float` (src/lib.rs, lines 35–53). -/
def kalman_update_float (s : KalmanState ℚ) (observation : ℚ) : KalmanState ℚ :=
  let kalman_gain := kalmanGainFloat s
  let new_estimate := s.estimate + kalman_gain * (observation - s.estimate)
  let new_uncertainty := (1 - kalman_gain) * s.uncertainty + s.process_variance
  new_float new_estimate new_uncertainty s.measurement_variance s.process_variance

/-- Rust `Float` arithmetic never panics (division by zero yields a
non-finite value that merely propagates), so the float update always
returns a state. -/
def kalman_update_float_checked (s : KalmanState ℚ) (observation : ℚ) :
    Option (KalmanState ℚ) :=
  some (kalman_update_float s observation)

/-- The float update with the IEEE error path explicit: when the gain
denominator `uncertainty + measurement_variance` is zero the division
(`0.0/0.0` at the degenerate all-zero uncertainties, `x/0.0` otherwise)
produces a non-finite value that propagates into every returned field, so
no finite state results — modelled as `none`.  Otherwise the
exact-arithmetic state of `kalman_update_float` is returned. -/
def kalman_update_float_finite (s : KalmanState ℚ) (observation : ℚ) :
    Option (KalmanState ℚ) :=
  if s.uncertainty + s.measurement_variance = 0 then none
  else some (kalman_update_float s observation)

/-- Fixed-point multiplication on raw representations with `f` fractional
bits: the double-width product is truncated (arithmetic shift by `f`),
i.e. floored. -/
def fxMul (f : ℕ) (a b : ℤ) : ℤ := Int.fdiv (a * b) (2 ^ f)

/-- Fixed-point division on raw representations: the widened dividend
`a * 2^f` divided by `b`.  On the non-negative operands produced under the
filter invariant every integer-division rounding convention coincides; we
use the floor form.  (`Int.fdiv _ 0 = 0` is junk: the `fixed` crate's `Div`
panics on a zero divisor, made explicit in the `_checked` update.) -/
def fxDiv (f : ℕ) (a b : ℤ) : ℤ := Int.fdiv (a * 2 ^ f) b

/-- The raw representation of the representation's unit value `T::ONE`. -/
def fxOne (f : ℕ) : ℤ := 2 ^ f

/-- `KalmanState::new_fixed` (src/lib.rs, lines 60–87): on a signed
representation each uncertainty-like field `x` becomes `ZERO - x` when
`x < 0`; an unsigned representation leaves all fields unchanged. -/
def new_fixed (signed : Bool) (estimate uncertainty measurement_variance process_variance : ℤ) :
    KalmanState ℤ :=
  if signed then
    ⟨estimate,
     if uncertainty < 0 then 0 - uncertainty else uncertainty,
     if measurement_variance < 0 then 0 - measurement_variance else measurement_variance,
     if process_variance < 0 then 0 - process_variance else process_variance⟩
  else
    ⟨estimate, uncertainty, measurement_variance, process_variance⟩

/-- The Kalman gain of the fixed path (src/lib.rs, line 98). -/
def kalmanGainFixed (f : ℕ) (s : KalmanState ℤ) : ℤ :=
  fxDiv f s.uncertainty (s.uncertainty + s.measurement_variance)

/-- `kalman_update_fixed` (src/lib.rs, lines 93–119): the estimate step
branches on `observation >= estimate` so that no subtraction with a
negative true result is evaluated (unsigned formats cannot represent it). -/
def kalman_update_fixed (f : ℕ) (signed : Bool) (s : KalmanState ℤ) (observation : ℤ) :
    KalmanState ℤ :=
  let kalman_gain := kalmanGainFixed f s
  let new_estimate :=
    if s.estimate ≤ observation then
      s.estimate + fxMul f kalman_gain (observation - s.estimate)
    else
      s.estimate - fxMul f kalman_gain (s.estimate - observation)
  let new_uncertainty := fxMul f (fxOne f - kalman_gain) s.uncertainty + s.process_variance
  new_fixed signed new_estimate new_uncertainty s.measurement_variance s.process_variance

/-- The fixed path with the representation-level fault made explicit: the
`fixed` crate's `Div` panics when the divisor `uncertainty +
measurement_variance` is zero, so no state is returned there. -/
def kalman_update_fixed_checked (f : ℕ) (signed : Bool) (s : KalmanState ℤ) (observation : ℤ) :
    Option (KalmanState ℤ) :=
  if s.uncertainty + s.measurement_variance = 0 then none
  else some (kalman_update_fixed f signed s observation)

/-- The commented-out direct estimate formula (src/lib.rs, line 107):
`estimate + gain * (observation - estimate)` evaluated in the same
fixed-point arithmetic, without the branch. -/
def direct_estimate_fixed (f : ℕ) (s : KalmanState ℤ) (observation : ℤ) : ℤ :=
  s.estimate + fxMul f (kalmanGainFixed f s) (observation - s.estimate)

/-- The documented invariant on a state (spec §3): the three
uncertainty-like fields are non-negative. -/
def UncertaintyInv {α : Type} [Zero α] [LE α] (s : KalmanState α) : Prop :=
  0 ≤ s.uncertainty ∧ 0 ≤ s.measurement_variance ∧ 0 ≤ s.process_variance

/-- Feeding one fixed observation `n` times through the float update
(the fold loop of the tests, src/lib.rs lines 154–156). -/
def iterate_update_float (observation : ℚ) : ℕ → KalmanState ℚ → KalmanState ℚ
  | 0, s => s
  | n + 1, s => iterate_update_float observation n (kalman_update_float s observation)

/-! ## Helper lemmas -/

theorem ite_neg_eq_abs (u : ℤ) : (if u < 0 then -u else u) = |u| := by
  rcases lt_or_ge u 0 with h | h
  · rw [if_pos h, abs_of_neg h]
  · rw [if_neg (not_lt.mpr h), abs_of_nonneg h]

theorem ite_zero_sub_nonneg (x : ℤ) : 0 ≤ if x < 0 then 0 - x else x := by
  rcases lt_or_ge x 0 with h | h
  · rw [if_pos h, zero_sub]
    linarith
  · rw [if_neg (not_lt.mpr h)]
    exact h

theorem new_fixed_estimate (signed : Bool) (e u m p : ℤ) :
    (new_fixed signed e u m p).estimate = e := by
  cases signed <;> simp [new_fixed]

theorem new_fixed_measurement (signed : Bool) (e u m p : ℤ) (hm : 0 ≤ m) :
    (new_fixed signed e u m p).measurement_variance = m := by
  cases signed <;> simp [new_fixed, not_lt.mpr hm]

theorem new_fixed_process (signed : Bool) (e u m p : ℤ) (hp : 0 ≤ p) :
    (new_fixed signed e u m p).process_variance = p := by
  cases signed <;> simp [new_fixed, not_lt.mpr hp]

theorem update_fixed_estimate_eq (f : ℕ) (signed : Bool) (s : KalmanState ℤ) (o : ℤ) :
    (kalman_update_fixed f signed s o).estimate =
      if s.estimate ≤ o then s.estimate + fxMul f (kalmanGainFixed f s) (o - s.estimate)
      else s.estimate - fxMul f (kalmanGainFixed f s) (s.estimate - o) := by
  unfold kalman_update_fixed
  rw [new_fixed_estimate]

theorem kalmanGainFloat_bounds (s : KalmanState ℚ)
    (hu : 0 ≤ s.uncertainty) (hm : 0 ≤ s.measurement_variance) :
    0 ≤ kalmanGainFloat s ∧ kalmanGainFloat s ≤ 1 := by
  unfold kalmanGainFloat
  rcases eq_or_lt_of_le (by linarith : (0 : ℚ) ≤ s.uncertainty + s.measurement_variance)
    with h | h
  · have hu0 : s.uncertainty = 0 := by linarith
    rw [hu0]
    simp
  · exact ⟨div_nonneg hu h.le, div_le_one_of_le₀ (by linarith) h.le⟩

theorem fxMul_nonneg (f : ℕ) {a b : ℤ} (ha : 0 ≤ a) (hb : 0 ≤ b) :
    0 ≤ fxMul f a b :=
  Int.fdiv_nonneg (mul_nonneg ha hb) (by positivity)

theorem fxMul_le_of_le_one (f : ℕ) {g d : ℤ} (hg : g ≤ fxOne f) (hd : 0 ≤ d) :
    fxMul f g d ≤ d := by
  have hN : (0 : ℤ) < 2 ^ f := by positivity
  unfold fxMul
  rw [Int.fdiv_eq_ediv _ hN.le]
  calc g * d / 2 ^ f ≤ 2 ^ f * d / 2 ^ f :=
        Int.ediv_le_ediv hN (mul_le_mul_of_nonneg_right hg hd)
    _ = d := Int.mul_ediv_cancel_left d hN.ne.symm

theorem kalmanGainFixed_bounds (f : ℕ) (s : KalmanState ℤ)
    (hu : 0 ≤ s.uncertainty) (hm : 0 ≤ s.measurement_variance) :
    0 ≤ kalmanGainFixed f s ∧ kalmanGainFixed f s ≤ fxOne f := by
  have hN : (0 : ℤ) < 2 ^ f := by positivity
  unfold kalmanGainFixed fxDiv fxOne
  rcases eq_or_lt_of_le (by linarith : (0 : ℤ) ≤ s.uncertainty + s.measurement_variance)
    with h | h
  · rw [← h, Int.fdiv_zero]
    exact ⟨le_refl 0, hN.le⟩
  · rw [Int.fdiv_eq_ediv _ h.le]
    constructor
    · exact Int.ediv_nonneg (mul_nonneg hu hN.le) h.le
    · calc s.uncertainty * 2 ^ f / (s.uncertainty + s.measurement_variance)
          ≤ (s.uncertainty + s.measurement_variance) * 2 ^ f /
              (s.uncertainty + s.measurement_variance) :=
            Int.ediv_le_ediv h (mul_le_mul_of_nonneg_right (by linarith) hN.le)
      _ = 2 ^ f := Int.mul_ediv_cancel_left _ h.ne.symm

theorem fdiv_add_neg_fdiv (x N : ℤ) (hN : 0 < N) :
    (N ∣ x → x.fdiv N + (-x).fdiv N = 0) ∧
    (¬ N ∣ x → x.fdiv N + (-x).fdiv N = -1) := by
  rw [Int.fdiv_eq_ediv _ hN.le, Int.fdiv_eq_ediv _ hN.le]
  have h1 := Int.ediv_add_emod x N
  have h2 := Int.ediv_add_emod (-x) N
  have hr1 : 0 ≤ x % N := Int.emod_nonneg x hN.ne.symm
  have hr2 : x % N < N := Int.emod_lt_of_pos x hN
  have hr3 : 0 ≤ (-x) % N := Int.emod_nonneg (-x) hN.ne.symm
  have hr4 : (-x) % N < N := Int.emod_lt_of_pos (-x) hN
  have hsum : N * (x / N + (-x) / N) = -(x % N + (-x) % N) := by
    rw [mul_add]
    linarith
  constructor
  · intro h
    rw [Int.neg_ediv_of_dvd h]
    ring
  · intro h
    have hx : x % N ≠ 0 := fun hc => h (Int.dvd_of_emod_eq_zero hc)
    have hb1 : x / N + (-x) / N ≤ 0 := by nlinarith
    have hb2 : -1 ≤ x / N + (-x) / N := by nlinarith
    have hne : x / N + (-x) / N ≠ 0 := by
      intro hc
      rw [hc, mul_zero] at hsum
      exact hx (by linarith)
    omega

theorem update_float_closed_form (s : KalmanState ℚ) (o : ℚ)
    (hu : 0 ≤ s.uncertainty) (hm : 0 ≤ s.measurement_variance)
    (hp : 0 ≤ s.process_variance) :
    kalman_update_float s o =
      ⟨s.estimate + kalmanGainFloat s * (o - s.estimate),
       (1 - kalmanGainFloat s) * s.uncertainty + s.process_variance,
       s.measurement_variance, s.process_variance⟩ := by
  have hg := kalmanGainFloat_bounds s hu hm
  have h1 : (0 : ℚ) ≤ (1 - kalmanGainFloat s) * s.uncertainty + s.process_variance := by
    nlinarith [mul_nonneg (by linarith [hg.2] : (0 : ℚ) ≤ 1 - kalmanGainFloat s) hu]
  simp only [kalman_update_float, new_float]
  rw [abs_of_nonneg h1, abs_of_nonneg hm, abs_of_nonneg hp]

theorem update_float_inv (s : KalmanState ℚ) (o : ℚ) :
    UncertaintyInv (kalman_update_float s o) :=
  ⟨abs_nonneg _, abs_nonneg _, abs_nonneg _⟩

theorem contract_float (s : KalmanState ℚ) (c : ℚ) (h : UncertaintyInv s) :
    |(kalman_update_float s c).estimate - c| ≤ |s.estimate - c| := by
  obtain ⟨hu, hm, hp⟩ := h
  have hg := kalmanGainFloat_bounds s hu hm
  have he : (kalman_update_float s c).estimate - c =
      (1 - kalmanGainFloat s) * (s.estimate - c) := by
    show s.estimate + kalmanGainFloat s * (c - s.estimate) - c = _
    ring
  rw [he, abs_mul]
  have h1 : |1 - kalmanGainFloat s| ≤ 1 :=
    abs_le.mpr ⟨by linarith [hg.2], by linarith [hg.1]⟩
  exact mul_le_of_le_one_left (abs_nonneg _) h1

theorem contract_fixed (f : ℕ) (signed : Bool) (s : KalmanState ℤ) (c : ℤ)
    (h : UncertaintyInv s) :
    |(kalman_update_fixed f signed s c).estimate - c| ≤ |s.estimate - c| := by
  obtain ⟨hu, hm, hp⟩ := h
  have hgb := kalmanGainFixed_bounds f s hu hm
  rw [update_fixed_estimate_eq]
  rcases le_or_lt s.estimate c with hle | hlt
  · rw [if_pos hle]
    have h0 : 0 ≤ fxMul f (kalmanGainFixed f s) (c - s.estimate) :=
      fxMul_nonneg f hgb.1 (by linarith)
    have h1 : fxMul f (kalmanGainFixed f s) (c - s.estimate) ≤ c - s.estimate :=
      fxMul_le_of_le_one f hgb.2 (by linarith)
    rw [abs_of_nonpos (by linarith), abs_of_nonpos (by linarith)]
    linarith
  · rw [if_neg (not_le.mpr hlt)]
    have h0 : 0 ≤ fxMul f (kalmanGainFixed f s) (s.estimate - c) :=
      fxMul_nonneg f hgb.1 (by linarith)
    have h1 : fxMul f (kalmanGainFixed f s) (s.estimate - c) ≤ s.estimate - c :=
      fxMul_le_of_le_one f hgb.2 (by linarith)
    rw [abs_of_nonneg (by linarith), abs_of_nonneg (by linarith)]
    linarith

theorem iterate_update_float_contracts (c : ℚ) :
    ∀ (n : ℕ) (s : KalmanState ℚ), UncertaintyInv s →
      |(iterate_update_float c n s).estimate - c| ≤ |s.estimate - c|
  | 0, _, _ => le_refl _
  | n + 1, s, h =>
    le_trans
      (iterate_update_float_contracts c n (kalman_update_float s c) (update_float_inv s c))
      (contract_float s c h)

/-! ## Claim theorems -/

/-- C6: for every input tuple, construction returns a state whose estimate is
the input estimate and whose three uncertainty-like fields are the absolute
values of the inputs on the signed paths (`new_float`, `new_fixed` signed),
and exactly the inputs on an unsigned representation; the constructors are
total, so no error is raised for negative inputs. -/
theorem construction_returns_magnitudes :
    (∀ e u m p : ℚ, new_float e u m p = ⟨e, |u|, |m|, |p|⟩) ∧
    (∀ e u m p : ℤ, new_fixed true e u m p = ⟨e, |u|, |m|, |p|⟩) ∧
    (∀ e u m p : ℤ, new_fixed false e u m p = ⟨e, u, m, p⟩) := by
  refine ⟨fun e u m p => rfl, fun e u m p => ?_, fun e u m p => rfl⟩
  simp [new_fixed, ite_neg_eq_abs]

/-- C4: whenever uncertainty and measurement uncertainty are non-negative and
not both zero, the computed Kalman gain lies in `[0, 1]` — on the fixed path,
between `0` and the representation's unit value `fxOne f`. -/
theorem kalman_gain_in_unit_interval :
    (∀ s : KalmanState ℚ, 0 ≤ s.uncertainty → 0 ≤ s.measurement_variance →
        ¬(s.uncertainty = 0 ∧ s.measurement_variance = 0) →
        0 ≤ kalmanGainFloat s ∧ kalmanGainFloat s ≤ 1) ∧
    (∀ (f : ℕ) (s : KalmanState ℤ), 0 ≤ s.uncertainty → 0 ≤ s.measurement_variance →
        ¬(s.uncertainty = 0 ∧ s.measurement_variance = 0) →
        0 ≤ kalmanGainFixed f s ∧ kalmanGainFixed f s ≤ fxOne f) :=
  ⟨fun s hu hm _ => kalmanGainFloat_bounds s hu hm,
   fun f s hu hm _ => kalmanGainFixed_bounds f s hu hm⟩

theorem kalman_gain_in_unit_interval_witness :
    (0 ≤ kalmanGainFloat ⟨0, 1, 1, 0⟩ ∧ kalmanGainFloat ⟨0, 1, 1, 0⟩ ≤ 1) ∧
    (0 ≤ kalmanGainFixed 16 ⟨0, 1, 1, 0⟩ ∧ kalmanGainFixed 16 ⟨0, 1, 1, 0⟩ ≤ fxOne 16) :=
  ⟨kalman_gain_in_unit_interval.1 ⟨0, 1, 1, 0⟩ (by norm_num) (by norm_num) (by norm_num),
   kalman_gain_in_unit_interval.2 16 ⟨0, 1, 1, 0⟩ (by norm_num) (by norm_num) (by norm_num)⟩

/-- C1 (amended): for every state satisfying the non-negativity invariant,
the float update computes the gain as `u / (u + m)`, the new estimate as
`e + gain * (obs - e)`, and the new uncertainty as `(1 - gain) * u + p`.
(The amendment restricts to invariant states: the update re-normalises the
returned uncertainty with `abs` through `new_float`, so on states with
negative fields the returned uncertainty is the absolute value of the
additive form, not the form itself.) -/
theorem update_float_computes_gain_blend_additive (s : KalmanState ℚ) (o : ℚ)
    (hu : 0 ≤ s.uncertainty) (hm : 0 ≤ s.measurement_variance)
    (hp : 0 ≤ s.process_variance) :
    (kalman_update_float s o).estimate =
      s.estimate + s.uncertainty / (s.uncertainty + s.measurement_variance) * (o - s.estimate) ∧
    (kalman_update_float s o).uncertainty =
      (1 - s.uncertainty / (s.uncertainty + s.measurement_variance)) * s.uncertainty +
        s.process_variance := by
  have hg := kalmanGainFloat_bounds s hu hm
  constructor
  · rfl
  · show |(1 - kalmanGainFloat s) * s.uncertainty + s.process_variance| = _
    rw [abs_of_nonneg (by nlinarith [mul_nonneg (by linarith [hg.2] :
      (0 : ℚ) ≤ 1 - kalmanGainFloat s) hu])]
    rfl

theorem update_float_computes_gain_blend_additive_witness :
    (kalman_update_float ⟨0, 1, 1, 1⟩ 2).estimate = 0 + 1 / (1 + 1) * (2 - 0) ∧
    (kalman_update_float ⟨0, 1, 1, 1⟩ 2).uncertainty = (1 - 1 / (1 + 1)) * 1 + 1 :=
  update_float_computes_gain_blend_additive ⟨0, 1, 1, 1⟩ 2 (by norm_num) (by norm_num)
    (by norm_num)

/-- C1 counterexample: on a state with a negative measurement variance the
returned uncertainty is the absolute value of the additive form, not the
additive form `(1 - gain) * u + p` itself. -/
theorem update_float_formula_cex :
    (kalman_update_float ⟨0, 2, -1, 0⟩ 0).uncertainty ≠
      (1 - (2 : ℚ) / (2 + -1)) * 2 + 0 := by
  have hg : kalmanGainFloat ⟨0, 2, -1, 0⟩ = 2 := by
    norm_num [kalmanGainFloat]
  have h : (kalman_update_float ⟨0, 2, -1, 0⟩ 0).uncertainty = 2 := by
    show |(1 - kalmanGainFloat ⟨0, 2, -1, 0⟩) * 2 + 0| = 2
    rw [hg, abs_of_nonpos (by norm_num)]
    norm_num
  rw [h]
  norm_num

/-- C7 (amended): for every state whose tuning constants are non-negative —
as in every constructed state — both updates return a state carrying the
same `measurement_variance` and `process_variance` as the input. -/
theorem update_preserves_tuning_constants :
    (∀ (s : KalmanState ℚ) (o : ℚ), 0 ≤ s.measurement_variance → 0 ≤ s.process_variance →
        (kalman_update_float s o).measurement_variance = s.measurement_variance ∧
        (kalman_update_float s o).process_variance = s.process_variance) ∧
    (∀ (f : ℕ) (signed : Bool) (s : KalmanState ℤ) (o : ℤ),
        0 ≤ s.measurement_variance → 0 ≤ s.process_variance →
        (kalman_update_fixed f signed s o).measurement_variance = s.measurement_variance ∧
        (kalman_update_fixed f signed s o).process_variance = s.process_variance) := by
  constructor
  · intro s o hm hp
    constructor
    · show |s.measurement_variance| = s.measurement_variance
      exact abs_of_nonneg hm
    · show |s.process_variance| = s.process_variance
      exact abs_of_nonneg hp
  · intro f signed s o hm hp
    exact ⟨new_fixed_measurement signed _ _ _ _ hm, new_fixed_process signed _ _ _ _ hp⟩

theorem update_preserves_tuning_constants_witness :
    ((kalman_update_float ⟨0, 1, 1, 1⟩ 0).measurement_variance = 1 ∧
      (kalman_update_float ⟨0, 1, 1, 1⟩ 0).process_variance = 1) ∧
    ((kalman_update_fixed 16 true ⟨0, 65536, 65536, 65536⟩ 0).measurement_variance = 65536 ∧
      (kalman_update_fixed 16 true ⟨0, 65536, 65536, 65536⟩ 0).process_variance = 65536) :=
  ⟨update_preserves_tuning_constants.1 ⟨0, 1, 1, 1⟩ 0 (by norm_num) (by norm_num),
   update_preserves_tuning_constants.2 16 true ⟨0, 65536, 65536, 65536⟩ 0 (by decide) (by decide)⟩

/-- C7 counterexample: on a state with a negative (invariant-violating)
measurement variance the float update does not carry the tuning constant
through unchanged — `new_float` re-normalises it to its absolute value. -/
theorem update_preserves_tuning_cex :
    (kalman_update_float ⟨0, 0, -1, 0⟩ 0).measurement_variance ≠ -1 := by
  have h : (kalman_update_float ⟨0, 0, -1, 0⟩ 0).measurement_variance = 1 := by
    show |(-1 : ℚ)| = 1
    rw [abs_of_nonpos (by norm_num)]
    norm_num
  rw [h]
  norm_num

/-- C2 (amended): the update functions raise no explicit error value: the
float update always returns a state, and the fixed update returns a state
whenever the representation's division does not fault, i.e. whenever the
gain denominator `uncertainty + measurement_variance` is nonzero. -/
theorem update_always_returns_modulo_division_fault :
    (∀ (s : KalmanState ℚ) (o : ℚ),
        kalman_update_float_checked s o = some (kalman_update_float s o)) ∧
    (∀ (f : ℕ) (signed : Bool) (s : KalmanState ℤ) (o : ℤ),
        s.uncertainty + s.measurement_variance ≠ 0 →
        kalman_update_fixed_checked f signed s o = some (kalman_update_fixed f signed s o)) := by
  refine ⟨fun s o => rfl, fun f signed s o h => ?_⟩
  rw [kalman_update_fixed_checked, if_neg h]

theorem update_always_returns_witness :
    kalman_update_fixed_checked 16 true ⟨0, 65536, 65536, 0⟩ 0 =
      some (kalman_update_fixed 16 true ⟨0, 65536, 65536, 0⟩ 0) :=
  update_always_returns_modulo_division_fault.2 16 true ⟨0, 65536, 65536, 0⟩ 0 (by decide)

/-- C2 counterexample: with both uncertainty fields zero the fixed path's
gain division has a zero divisor; the `fixed` representation's division
faults there, so no state is returned. -/
theorem update_fixed_zero_denominator_fault :
    kalman_update_fixed_checked 16 true ⟨0, 0, 0, 0⟩ 0 = none := by decide

/-- C3 (amended): the non-negativity invariant on the three
uncertainty-like fields holds for every constructed state (for an unsigned
representation the inputs are its inherently non-negative values) and is
preserved by every update call whose input state satisfies it and has a
nonzero gain denominator `uncertainty + measurement_variance`.  At the
degenerate invariant-satisfying input with both uncertainty fields zero,
the float path's `0.0/0.0` yields NaN fields and the fixed path's division
faults, so neither preserves the invariant there. -/
theorem invariant_established_and_preserved :
    (∀ e u m p : ℚ, UncertaintyInv (new_float e u m p)) ∧
    (∀ e u m p : ℤ, UncertaintyInv (new_fixed true e u m p)) ∧
    (∀ e u m p : ℤ, 0 ≤ u → 0 ≤ m → 0 ≤ p → UncertaintyInv (new_fixed false e u m p)) ∧
    (∀ (s : KalmanState ℚ) (o : ℚ), UncertaintyInv s →
        s.uncertainty + s.measurement_variance ≠ 0 →
        UncertaintyInv (kalman_update_float s o)) ∧
    (∀ (f : ℕ) (signed : Bool) (s : KalmanState ℤ) (o : ℤ), UncertaintyInv s →
        s.uncertainty + s.measurement_variance ≠ 0 →
        UncertaintyInv (kalman_update_fixed f signed s o)) := by
  refine ⟨fun e u m p => ⟨abs_nonneg u, abs_nonneg m, abs_nonneg p⟩,
    fun e u m p => ⟨ite_zero_sub_nonneg u, ite_zero_sub_nonneg m, ite_zero_sub_nonneg p⟩,
    fun e u m p hu hm hp => ⟨hu, hm, hp⟩,
    fun s o _ _ => ⟨abs_nonneg _, abs_nonneg _, abs_nonneg _⟩,
    fun f signed s o h _ => ?_⟩
  obtain ⟨hu, hm, hp⟩ := h
  cases signed
  · have hgb := kalmanGainFixed_bounds f s hu hm
    have h1 : 0 ≤ fxMul f (fxOne f - kalmanGainFixed f s) s.uncertainty :=
      fxMul_nonneg f (by linarith [hgb.2]) hu
    exact ⟨add_nonneg h1 hp, hm, hp⟩
  · exact ⟨ite_zero_sub_nonneg _, ite_zero_sub_nonneg _, ite_zero_sub_nonneg _⟩

theorem invariant_established_and_preserved_witness :
    UncertaintyInv (kalman_update_float ⟨0, 1, 1, 1⟩ 5) ∧
    UncertaintyInv (kalman_update_fixed 16 false ⟨0, 65536, 65536, 1⟩ 3) :=
  ⟨invariant_established_and_preserved.2.2.2.1 ⟨0, 1, 1, 1⟩ 5
      ⟨by norm_num, by norm_num, by norm_num⟩ (by norm_num),
   invariant_established_and_preserved.2.2.2.2 16 false ⟨0, 65536, 65536, 1⟩ 3
      ⟨by decide, by decide, by decide⟩ (by decide)⟩

/-- C3 counterexample: the all-zero state satisfies the invariant, yet
neither update path preserves it there: the float gain division `0.0/0.0`
yields NaN in every returned field — no finite state results, modelled
`none` — and the fixed representation's division faults. -/
theorem invariant_not_preserved_at_degenerate_state :
    UncertaintyInv (⟨0, 0, 0, 0⟩ : KalmanState ℚ) ∧
    kalman_update_float_finite ⟨0, 0, 0, 0⟩ 0 = none ∧
    kalman_update_fixed_checked 8 false ⟨0, 0, 0, 0⟩ 0 = none := by
  refine ⟨⟨le_refl 0, le_refl 0, le_refl 0⟩, ?_, by decide⟩
  norm_num [kalman_update_float_finite]

/-- C5: under unsigned-representable inputs (all fields and the observation
non-negative) the fixed update's estimate step branches on which of
observation and estimate is larger, and every subtraction it evaluates has a
non-negative true result: `obs - est` when `obs ≥ est`, and both `est - obs`
and the outer `est - gain ⊛ (est - obs)` otherwise — so no
unsigned-subtraction underflow can occur in the estimate step. -/
theorem update_fixed_no_unsigned_underflow (f : ℕ) (s : KalmanState ℤ) (o : ℤ)
    (_he : 0 ≤ s.estimate) (hu : 0 ≤ s.uncertainty) (hm : 0 ≤ s.measurement_variance)
    (ho : 0 ≤ o) :
    (s.estimate ≤ o →
      0 ≤ o - s.estimate ∧
      ∀ signed, (kalman_update_fixed f signed s o).estimate =
        s.estimate + fxMul f (kalmanGainFixed f s) (o - s.estimate)) ∧
    (o < s.estimate →
      0 ≤ s.estimate - o ∧
      fxMul f (kalmanGainFixed f s) (s.estimate - o) ≤ s.estimate ∧
      0 ≤ s.estimate - fxMul f (kalmanGainFixed f s) (s.estimate - o) ∧
      ∀ signed, (kalman_update_fixed f signed s o).estimate =
        s.estimate - fxMul f (kalmanGainFixed f s) (s.estimate - o)) := by
  have hgb := kalmanGainFixed_bounds f s hu hm
  constructor
  · intro hle
    exact ⟨by linarith, fun signed => by rw [update_fixed_estimate_eq, if_pos hle]⟩
  · intro hlt
    have hd : 0 ≤ s.estimate - o := by linarith
    have h1 : fxMul f (kalmanGainFixed f s) (s.estimate - o) ≤ s.estimate - o :=
      fxMul_le_of_le_one f hgb.2 hd
    exact ⟨hd, by linarith, by linarith,
      fun signed => by rw [update_fixed_estimate_eq, if_neg (not_le.mpr hlt)]⟩

theorem update_fixed_no_unsigned_underflow_witness :
    (kalman_update_fixed 16 false ⟨131072, 65536, 65536, 0⟩ 0).estimate =
      131072 - fxMul 16 (kalmanGainFixed 16 ⟨131072, 65536, 65536, 0⟩) (131072 - 0) :=
  (((update_fixed_no_unsigned_underflow 16 ⟨131072, 65536, 65536, 0⟩ 0 (by decide) (by decide)
    (by decide) (by decide)).2 (by decide)).2.2.2) false

/-- C8 (amended): with a constant observation `c`, a single update step
never moves the estimate farther from `c` — the new estimate's distance to
`c` is at most the previous one's — on both the float and the fixed path,
for any state satisfying the non-negativity invariant whose gain
denominator `uncertainty + measurement_variance` is nonzero.  At the
degenerate invariant-satisfying input with both uncertainty fields zero
the float path's estimate becomes NaN and the fixed path faults, so the
contraction fails there. -/
theorem estimate_contracts_toward_constant_observation :
    (∀ (s : KalmanState ℚ) (c : ℚ), UncertaintyInv s →
        s.uncertainty + s.measurement_variance ≠ 0 →
        |(kalman_update_float s c).estimate - c| ≤ |s.estimate - c|) ∧
    (∀ (f : ℕ) (signed : Bool) (s : KalmanState ℤ) (c : ℤ), UncertaintyInv s →
        s.uncertainty + s.measurement_variance ≠ 0 →
        |(kalman_update_fixed f signed s c).estimate - c| ≤ |s.estimate - c|) :=
  ⟨fun s c h _ => contract_float s c h, fun f signed s c h _ => contract_fixed f signed s c h⟩

theorem estimate_contracts_witness :
    |(kalman_update_float ⟨0, 1, 1, 1⟩ 4).estimate - 4| ≤ |(0 : ℚ) - 4| ∧
    |(kalman_update_fixed 16 true ⟨0, 65536, 65536, 0⟩ 65536).estimate - 65536| ≤
      |(0 : ℤ) - 65536| :=
  ⟨estimate_contracts_toward_constant_observation.1 ⟨0, 1, 1, 1⟩ 4
      ⟨by norm_num, by norm_num, by norm_num⟩ (by norm_num),
   estimate_contracts_toward_constant_observation.2 16 true ⟨0, 65536, 65536, 0⟩ 65536
      ⟨by decide, by decide, by decide⟩ (by decide)⟩

/-- C8 counterexample: the all-zero state satisfies the non-negativity
invariant, yet fed the constant observation `1` the float update's gain
division `0.0/0.0` makes the returned estimate NaN — no finite state
results (modelled `none`), so the new estimate is not within the previous
distance `|0 - 1|` of the observation; the fixed path's division faults at
the same input. -/
theorem contraction_fails_at_degenerate_state :
    UncertaintyInv (⟨0, 0, 0, 0⟩ : KalmanState ℚ) ∧
    kalman_update_float_finite ⟨0, 0, 0, 0⟩ 1 = none := by
  refine ⟨⟨le_refl 0, le_refl 0, le_refl 0⟩, ?_⟩
  norm_num [kalman_update_float_finite]

/-- C9: starting from the state `{estimate = 1/2, uncertainty = 1/10,
measurement_uncertainty = 1/10000, process_noise = 1}` and applying the
float update ten times with observation `1`, the final estimate is within
`1/10000` of `1`. -/
theorem ten_float_updates_converge_to_observation :
    |(iterate_update_float 1 10 ⟨1/2, 1/10, 1/10000, 1⟩).estimate - 1| < 1 / 10000 := by
  have hs1 : kalman_update_float ⟨1/2, 1/10, 1/10000, 1⟩ 1 =
      ⟨2001/2002, 10011/10010, 1/10000, 1⟩ := by
    rw [update_float_closed_form _ _ (by norm_num) (by norm_num) (by norm_num)]
    norm_num [kalmanGainFloat]
  have hs2 : kalman_update_float ⟨2001/2002, 10011/10010, 1/10000, 1⟩ 1 =
      ⟨20024001/20024002, 100130021/100120010, 1/10000, 1⟩ := by
    rw [update_float_closed_form _ _ (by norm_num) (by norm_num) (by norm_num)]
    norm_num [kalmanGainFloat]
  have hiter : iterate_update_float 1 10 ⟨1/2, 1/10, 1/10000, 1⟩ =
      iterate_update_float 1 8
        (kalman_update_float (kalman_update_float ⟨1/2, 1/10, 1/10000, 1⟩ 1) 1) := rfl
  rw [hiter, hs1, hs2]
  have hb := iterate_update_float_contracts 1 8
    ⟨20024001/20024002, 100130021/100120010, 1/10000, 1⟩
    ⟨by norm_num, by norm_num, by norm_num⟩
  calc |(iterate_update_float 1 8
          (⟨20024001/20024002, 100130021/100120010, 1/10000, 1⟩ : KalmanState ℚ)).estimate - 1|
      ≤ |(20024001/20024002 : ℚ) - 1| := hb
    _ < 1 / 10000 := by
        rw [abs_sub_comm, abs_of_nonneg (by norm_num : (0 : ℚ) ≤ 1 - 20024001/20024002)]
        norm_num

/-- C10 (amended): the branched estimate computation yields the same value
as the direct formula whenever `observation ≥ estimate` (both evaluate the
identical expression), and also when `observation < estimate` provided the
raw product `gain · (estimate − observation)` is a multiple of `2^f`; when
`observation < estimate` and that product is not such a multiple, the
branched result exceeds the direct result by exactly one raw quantum — the
branched form floors the non-negative correction magnitude while the direct
form floors its negation. -/
theorem branched_estimate_refines_direct (f : ℕ) (s : KalmanState ℤ) (o : ℤ) :
    (s.estimate ≤ o →
      (kalman_update_fixed f true s o).estimate = direct_estimate_fixed f s o) ∧
    (o < s.estimate →
      ((2 ^ f : ℤ) ∣ kalmanGainFixed f s * (s.estimate - o) →
        (kalman_update_fixed f true s o).estimate = direct_estimate_fixed f s o) ∧
      (¬ (2 ^ f : ℤ) ∣ kalmanGainFixed f s * (s.estimate - o) →
        (kalman_update_fixed f true s o).estimate = direct_estimate_fixed f s o + 1)) := by
  have hN : (0 : ℤ) < 2 ^ f := by positivity
  rw [update_fixed_estimate_eq]
  constructor
  · intro hle
    rw [if_pos hle]
    rfl
  · intro hlt
    rw [if_neg (not_le.mpr hlt)]
    unfold direct_estimate_fixed fxMul
    have hneg : kalmanGainFixed f s * (o - s.estimate) =
        -(kalmanGainFixed f s * (s.estimate - o)) := by ring
    rw [hneg]
    have key := fdiv_add_neg_fdiv (kalmanGainFixed f s * (s.estimate - o)) (2 ^ f) hN
    constructor
    · intro hdvd
      linarith [key.1 hdvd]
    · intro hdvd
      linarith [key.2 hdvd]

theorem branched_estimate_refines_direct_witness :
    (kalman_update_fixed 16 true ⟨65536, 65536, 131072, 0⟩ 65533).estimate =
      direct_estimate_fixed 16 ⟨65536, 65536, 131072, 0⟩ 65533 + 1 :=
  ((branched_estimate_refines_direct 16 ⟨65536, 65536, 131072, 0⟩ 65533).2 (by decide)).2
    (by decide)

/-- C10 counterexample: for the signed format with 16 fractional bits, at
gain `21845/2^16` and a difference of `3` raw units with the observation
below the estimate, the branched form keeps the estimate at `65536` raw
units while the direct formula yields `65535`: the product `21845 · 3` is
not a multiple of `2^16`, and its floor rounds the two forms apart. -/
theorem branched_vs_direct_cex :
    (kalman_update_fixed 16 true ⟨65536, 65536, 131072, 0⟩ 65533).estimate ≠
      direct_estimate_fixed 16 ⟨65536, 65536, 131072, 0⟩ 65533 := by decide

end KalmanFusion
